import Mathlib

/-!
Shallow embedding of `src/app.py` (smart-doc-scanner): the text normalizer
`preprocess_text`, the rule-based `categorize`, the PDF extraction pipeline
`extract_text_from_pdf`, and the upload / dashboard state machine.
Python strings are modelled as lists of characters (`Str`); the program's
data is English text, so `str.lower()` is modelled by the ASCII
`Char.toLower`.  External collaborators (PyPDF2, pdf2image, pytesseract,
werkzeug, sqlite) are modelled by their observable outcomes: a `PdfFile`
records what the PDF stack would produce for a given file, an
`Except Str _` records whether a library call raises, and the `documents`
table is a list of records in insertion order.  Python exceptions the code
catches never escape, so every modelled operation is a total function.
-/

namespace SmartDoc

/-- Python strings are modelled as lists of characters. -/
abbrev Str : Type := List Char

/-- Python whitespace as used by `str.split()` (app.py line 48) and
`str.strip()` (line 94): space, tab, newline, carriage return, vertical
tab, form feed. -/
def pyIsSpace (c : Char) : Bool :=
  c == ' ' || c == '\t' || c == '\n' || c == '\r' || c.toNat == 11 || c.toNat == 12

/-- Membership in Python's `string.punctuation`, the 32 ASCII punctuation
characters (codepoints 33-47, 58-64, 91-96, 123-126); these are deleted by
the `str.translate` call at app.py line 47. -/
def isPunct (c : Char) : Bool :=
  (33 ≤ c.toNat && c.toNat ≤ 47) || (58 ≤ c.toNat && c.toNat ≤ 64) ||
  (91 ≤ c.toNat && c.toNat ≤ 96) || (123 ≤ c.toNat && c.toNat ≤ 126)

/-- Python `str.lower()` (app.py line 45) on ASCII text. -/
def pyLower (s : Str) : Str := s.map Char.toLower

/-- The regex substitution `re.sub(r'\d+', '', text)` at app.py line 46:
every maximal run of decimal digits is replaced by the empty string, which
deletes exactly the decimal-digit characters. -/
def reSubDigits : Str → Str
  | [] => []
  | c :: cs => if c.isDigit then reSubDigits cs else c :: reSubDigits cs

/-- Python `str.strip()` (app.py line 94): remove leading and trailing
whitespace. -/
def pyStrip (s : Str) : Str :=
  ((s.dropWhile pyIsSpace).reverse.dropWhile pyIsSpace).reverse

/-- Fuelled worker for `splitWs`; the fuel only bounds the recursion depth
(one unit per token boundary), it never alters the result when it is at
least the length of the string. -/
def splitWsF : Nat → Str → List Str
  | _, [] => []
  | 0, _ :: _ => []
  | fuel + 1, c :: cs =>
    if pyIsSpace c then splitWsF fuel cs
    else (c :: cs.takeWhile (fun d => !pyIsSpace d)) ::
      splitWsF fuel (cs.dropWhile (fun d => !pyIsSpace d))

/-- Python `str.split()` with no separator (app.py line 48): split on runs
of whitespace, discarding empty tokens. -/
def splitWs (s : Str) : List Str := splitWsF s.length s

/-- Python `" ".join(tokens)` (app.py line 50): interleave a single space
between tokens. -/
def joinSp : List Str → Str
  | [] => []
  | [w] => w
  | w :: w2 :: ws => w ++ ' ' :: joinSp (w2 :: ws)

/-- The NLTK English stopword set loaded at app.py lines 22-26
(`stopwords.words("english")`, 179 words). -/
def stop_words : List Str := ([
  "i", "me", "my", "myself", "we", "our", "ours", "ourselves", "you",
  "you\x27re", "you\x27ve", "you\x27ll", "you\x27d", "your", "yours",
  "yourself", "yourselves", "he", "him", "his", "himself", "she",
  "she\x27s", "her", "hers", "herself", "it", "it\x27s", "its", "itself",
  "they", "them", "their", "theirs", "themselves", "what", "which", "who",
  "whom", "this", "that", "that\x27ll", "these", "those", "am", "is",
  "are", "was", "were", "be", "been", "being", "have", "has", "had",
  "having", "do", "does", "did", "doing", "a", "an", "the", "and", "but",
  "if", "or", "because", "as", "until", "while", "of", "at", "by", "for",
  "with", "about", "against", "between", "into", "through", "during",
  "before", "after", "above", "below", "to", "from", "up", "down", "in",
  "out", "on", "off", "over", "under", "again", "further", "then", "once",
  "here", "there", "when", "where", "why", "how", "all", "any", "both",
  "each", "few", "more", "most", "other", "some", "such", "no", "nor",
  "not", "only", "own", "same", "so", "than", "too", "very", "s", "t",
  "can", "will", "just", "don", "don\x27t", "should", "should\x27ve",
  "now", "d", "ll", "m", "o", "re", "ve", "y", "ain", "aren",
  "aren\x27t", "couldn", "couldn\x27t", "didn", "didn\x27t", "doesn",
  "doesn\x27t", "hadn", "hadn\x27t", "hasn", "hasn\x27t", "haven",
  "haven\x27t", "isn", "isn\x27t", "ma", "mightn", "mightn\x27t",
  "mustn", "mustn\x27t", "needn", "needn\x27t", "shan", "shan\x27t",
  "shouldn", "shouldn\x27t", "wasn", "wasn\x27t", "weren", "weren\x27t",
  "won", "won\x27t", "wouldn", "wouldn\x27t"] : List String).map String.toList

/-- app.py lines 44-50, `preprocess_text`: lowercase, delete digit runs,
delete punctuation, split on whitespace, drop stopwords, rejoin with
single spaces. -/
def preprocess_text (text : Str) : Str :=
  joinSp (((splitWs ((reSubDigits (pyLower text)).filter
    (fun c => !isPunct c)))).filter (fun w => !stop_words.contains w))

/-- Does `n` occur at the start of `h`?  Helper for Python's substring
containment. -/
def strStarts : Str → Str → Bool
  | [], _ => true
  | _ :: _, [] => false
  | a :: as, b :: bs => a == b && strStarts as bs

/-- Python's `needle in haystack` substring containment, used by
`categorize` (app.py lines 54-60). -/
def strHas (n : Str) : Str → Bool
  | [] => strStarts n []
  | c :: t => strStarts n (c :: t) || strHas n t

/-- Python's `any(word in text for word in words)`. -/
def containsAny (ws : List Str) (text : Str) : Bool :=
  ws.any (fun w => strHas w text)

/-- Keyword list of the first rule at app.py line 54. -/
def billWords : List Str := (["invoice", "gst", "amount", "total"] : List String).map String.toList

/-- Keyword list of the second rule at app.py line 56. -/
def idWords : List Str := (["prn", "roll", "student", "id"] : List String).map String.toList

/-- Keyword list of the third rule at app.py line 58. -/
def notesWords : List Str := (["assignment", "lecture", "subject", "class"] : List String).map String.toList

/-- Keyword list of the fourth rule at app.py line 60. -/
def certWords : List Str := (["certificate", "award", "completion"] : List String).map String.toList

/-- app.py lines 53-63, `categorize`: if/elif chain of keyword-set
substring tests. -/
def categorize (text : Str) : Str :=
  if containsAny billWords text then "Bill".toList
  else if containsAny idWords text then "ID Document".toList
  else if containsAny notesWords text then "Notes".toList
  else if containsAny certWords text then "Certificate".toList
  else "Uncategorized".toList

/-- The five category labels of the data model. -/
def fixedCategories : List Str :=
  (["Bill", "ID Document", "Notes", "Certificate", "Uncategorized"] : List String).map String.toList

/-- The sentinel appended at app.py line 89 when the OCR fallback raises. -/
def ocrSentinel : Str := "\n⚠️ OCR not available in hosted version.".toList

/-- The sentinel text as it survives the final `strip()` (its leading
newline removed). -/
def ocrSentinelBody : Str := "⚠️ OCR not available in hosted version.".toList

/-- The error marker produced at app.py line 92 when the PDF cannot be
opened or parsed (`f"❌ Error extracting PDF: {e}"`, without the cause). -/
def pdfErrorMarker : Str := "❌ Error extracting PDF: ".toList

/-- Outcome of the OCR fallback (app.py lines 85-87, `convert_from_path`
then `pytesseract.image_to_string` per page): either every page is OCR'd
successfully, or an exception is raised after some prefix of per-page
outputs has already been appended (`fail []` models `convert_from_path`
itself raising, the usual shape of "OCR unavailable"). -/
inductive OcrOutcome where
  | ok (pages : List Str)
  | fail (produced : List Str)
deriving DecidableEq

/-- Observable behaviour of the PDF stack on one file: `bad e` means
`PdfReader`/page iteration raises with message `e` (caught at app.py
lines 91-92); `good pages ocr` gives each page's `extract_text()` result
and the OCR fallback's behaviour were it invoked. -/
inductive PdfFile where
  | bad (err : Str)
  | good (pages : List Str) (ocr : OcrOutcome)
deriving DecidableEq

/-- The direct-extraction accumulation at app.py lines 77-80: each page
whose `extract_text()` is non-empty contributes its text plus a newline;
empty pages are skipped (`if extracted:`). -/
def directText : List Str → Str
  | [] => []
  | p :: ps => if p = [] then directText ps else p ++ '\n' :: directText ps

/-- app.py lines 66-94, `extract_text_from_pdf`: direct extraction, OCR
fallback when the accumulated text strips to empty (sentinel appended if
the fallback raises), final `strip()`; a parse failure is caught and
converted to the marker string, so the function is total and never
raises. -/
def extract_text_from_pdf : PdfFile → Str
  | .bad e => pdfErrorMarker ++ e
  | .good pages ocr =>
    let text := directText pages
    let text' :=
      if pyStrip text = [] then
        match ocr with
        | .ok os => text ++ os.flatten
        | .fail produced => text ++ produced.flatten ++ ocrSentinel
      else text
    pyStrip text'

/-- A row of the `documents` table (app.py lines 32-39): `id` is the
auto-incremented primary key, assigned as one plus the number of existing
rows (no row is ever deleted). -/
structure DocRecord where
  id : Nat
  filename : Str
  extracted_text : Str
  category : Str
deriving DecidableEq

/-- Observable behaviour of the environment for one uploaded file:
`sanitized` is `secure_filename(file.filename)` (app.py line 107),
`save` the outcome of `file.save` (line 116), `asPdf` what the PDF stack
does on the saved file, `asImage` what `Image.open` +
`pytesseract.image_to_string` returns or raises (line 122). -/
structure FilePart where
  sanitized : Str
  save : Except Str Unit
  asPdf : PdfFile
  asImage : Except Str Str

/-- An upload request: either no `file` part (app.py line 103) or a file
part with the environment's behaviour for it. -/
inductive UploadReq where
  | noFile
  | withFile (fp : FilePart)

/-- Response of the upload route: a plain error string
(`clientError`, app.py lines 104, 111, 139) or the rendered result page
carrying the extracted text and predicted category (lines 141-206). -/
inductive UploadResp where
  | clientError (msg : Str)
  | success (text category : Str)
deriving DecidableEq

/-- Fixed response string at app.py line 104. -/
def noFileMsg : Str := "❌ No file uploaded".toList

/-- Fixed response string at app.py line 111. -/
def badNameMsg : Str := "❌ No file selected or invalid filename".toList

/-- Marker of the generic processing-error response at app.py line 139
(`f"❌ Error processing file: {e}"`). -/
def procErrorMarker : Str := "❌ Error processing file: ".toList

/-- Does `h` end with `n`?  Models `str.endswith` (app.py line 119). -/
def strEnds (n h : Str) : Bool := strStarts n.reverse h.reverse

/-- app.py lines 101-139, `upload_file`, acting on the `documents` table:
reject a missing file part or an empty sanitized filename with the fixed
messages; otherwise save the file, dispatch on the `.pdf` extension to
`extract_text_from_pdf` or image OCR, preprocess and categorize the text,
and insert one row; any exception in the `try` block yields the generic
error response with no row inserted. -/
def upload_file (req : UploadReq) (st : List DocRecord) : UploadResp × List DocRecord :=
  match req with
  | .noFile => (.clientError noFileMsg, st)
  | .withFile fp =>
    if fp.sanitized = [] then (.clientError badNameMsg, st)
    else
      match fp.save with
      | .error e => (.clientError (procErrorMarker ++ e), st)
      | .ok _ =>
        let res : Except Str Str :=
          if strEnds ".pdf".toList (pyLower fp.sanitized) then
            .ok (extract_text_from_pdf fp.asPdf)
          else fp.asImage
        match res with
        | .error e => (.clientError (procErrorMarker ++ e), st)
        | .ok text =>
          let category := categorize (preprocess_text text)
          (.success text category,
            st ++ [{ id := st.length + 1, filename := fp.sanitized,
                     extracted_text := text, category := category }])

/-- app.py lines 209-215, `dashboard`: `SELECT id, filename, category`
over all rows in insertion order. -/
def dashboard (st : List DocRecord) : List (Nat × Str × Str) :=
  st.map (fun d => (d.id, d.filename, d.category))

/-- app.py lines 300-311, `view_doc`: detail lookup by id. -/
def view_doc (st : List DocRecord) (docId : Nat) : Option (Str × Str × Str) :=
  (st.find? (fun d => d.id == docId)).map (fun d => (d.filename, d.extracted_text, d.category))

/-- Run a sequence of upload requests against a starting table state. -/
def runUploads (reqs : List UploadReq) (st : List DocRecord) : List DocRecord :=
  match reqs with
  | [] => st
  | r :: rs => runUploads rs (upload_file r st).2

/-- Did the upload complete the whole pipeline (row inserted, result page
returned)? -/
def isSuccess : UploadResp → Bool
  | .success _ _ => true
  | .clientError _ => false

/-- Is the response one of the two fixed input-error responses (missing
file part / unusable filename)? -/
def isInputError : UploadResp → Bool
  | .clientError m => m == noFileMsg || m == badNameMsg
  | .success _ _ => false

/-- Number of successful uploads along a run. -/
def countSuccesses (reqs : List UploadReq) (st : List DocRecord) : Nat :=
  match reqs with
  | [] => 0
  | r :: rs =>
    (if isSuccess (upload_file r st).1 then 1 else 0) +
      countSuccesses rs (upload_file r st).2

/-- Number of non-input-error uploads along a run. -/
def countNonInputError (reqs : List UploadReq) (st : List DocRecord) : Nat :=
  match reqs with
  | [] => 0
  | r :: rs =>
    (if isInputError (upload_file r st).1 then 0 else 1) +
      countNonInputError rs (upload_file r st).2

/-- Ordered rule table of the categorizer as the spec describes it:
(keyword set, label) pairs in priority order. -/
def specRules : List (List Str × Str) :=
  [(billWords, "Bill".toList), (idWords, "ID Document".toList),
   (notesWords, "Notes".toList), (certWords, "Certificate".toList)]

/-- First-match evaluation of an ordered rule table, as the spec words
the categorizer: the first set with at least one keyword occurring as a
substring determines the label, otherwise `Uncategorized`. -/
def firstMatch : List (List Str × Str) → Str → Str
  | [], _ => "Uncategorized".toList
  | (kws, label) :: rest, text =>
    if containsAny kws text then label else firstMatch rest text

/-- Normalization pipeline as the spec words it: lowercase the whole
input, remove every decimal-digit character, remove every ASCII
punctuation character, split on whitespace discarding empty tokens, drop
stopword tokens, rejoin the survivors with single spaces in order. -/
def normalizeSpec (text : Str) : Str :=
  joinSp ((splitWs (((pyLower text).filter (fun c => !c.isDigit)).filter
    (fun c => !isPunct c))).filter (fun w => !stop_words.contains w))

/-- Witness fixture: an upload whose PDF fails to parse with message
`boom`. -/
def fpBadPdf : FilePart :=
  ⟨"a.pdf".toList, .ok (), .bad "boom".toList, .ok []⟩

/-- Witness fixture: an upload whose filename sanitizes to the empty
string. -/
def fpEmptyName : FilePart := ⟨[], .ok (), .bad [], .ok []⟩

/-- Witness fixture: an upload whose `file.save` raises. -/
def fpSaveFails : FilePart :=
  ⟨"a.pdf".toList, .error "disk full".toList, .bad [], .ok []⟩

/-- Witness fixture: a text PDF whose only page reads `invoice`. -/
def fpInvoice : FilePart :=
  ⟨"a.pdf".toList, .ok (), .good ["invoice".toList] (.ok []), .ok []⟩

theorem length_dropWhile_le (p : Char → Bool) (l : Str) :
    (l.dropWhile p).length ≤ l.length := by
  induction l with
  | nil => simp
  | cons a t ih =>
    simp only [List.dropWhile]
    cases _hpa : p a <;> simp
    exact Nat.le_succ_of_le ih

theorem splitWsF_fuel (f : Nat) :
    ∀ (g : Nat) (s : Str), s.length ≤ f → s.length ≤ g →
      splitWsF f s = splitWsF g s := by
  induction f with
  | zero =>
    intro g s hf _
    cases s with
    | nil => cases g <;> rfl
    | cons c cs => simp at hf
  | succ f ih =>
    intro g s hf hg
    cases s with
    | nil => cases g <;> rfl
    | cons c cs =>
      cases g with
      | zero => simp at hg
      | succ g' =>
        simp only [List.length_cons, Nat.add_le_add_iff_right] at hf hg
        simp only [splitWsF]
        by_cases hc : pyIsSpace c = true
        · rw [if_pos hc, if_pos hc]
          exact ih g' cs hf hg
        · rw [if_neg hc, if_neg hc]
          congr 1
          exact ih g' _ (le_trans (length_dropWhile_le _ _) hf)
            (le_trans (length_dropWhile_le _ _) hg)

theorem splitWs_cons (c : Char) (cs : Str) :
    splitWs (c :: cs) =
      if pyIsSpace c then splitWs cs
      else (c :: cs.takeWhile (fun d => !pyIsSpace d)) ::
        splitWs (cs.dropWhile (fun d => !pyIsSpace d)) := by
  unfold splitWs
  simp only [List.length_cons, splitWsF]
  by_cases hc : pyIsSpace c = true
  · rw [if_pos hc, if_pos hc]
  · rw [if_neg hc, if_neg hc]
    congr 1
    exact splitWsF_fuel _ _ _ (length_dropWhile_le _ _) le_rfl

theorem splitWsF_token_props (f : Nat) :
    ∀ (s : Str), ∀ w ∈ splitWsF f s,
      w ≠ [] ∧ ∀ c ∈ w, pyIsSpace c = false ∧ c ∈ s := by
  induction f with
  | zero =>
    intro s w hw
    cases s <;> simp [splitWsF] at hw
  | succ f ih =>
    intro s w hw
    cases s with
    | nil => simp [splitWsF] at hw
    | cons c cs =>
      simp only [splitWsF] at hw
      by_cases hc : pyIsSpace c = true
      · rw [if_pos hc] at hw
        rcases ih cs w hw with ⟨h1, h2⟩
        exact ⟨h1, fun d hd => ⟨(h2 d hd).1, List.mem_cons_of_mem _ (h2 d hd).2⟩⟩
      · rw [if_neg hc] at hw
        rcases List.mem_cons.mp hw with h | h
        · subst h
          refine ⟨by simp, ?_⟩
          intro d hd
          rcases List.mem_cons.mp hd with h | h
          · subst h
            exact ⟨by simpa using hc, List.mem_cons_self _ _⟩
          · constructor
            · have := List.mem_takeWhile_imp h
              simpa using this
            · exact List.mem_cons_of_mem _ ((List.takeWhile_sublist _).subset h)
        · rcases ih _ w h with ⟨h1, h2⟩
          refine ⟨h1, fun d hd => ⟨(h2 d hd).1, ?_⟩⟩
          exact List.mem_cons_of_mem _ ((List.dropWhile_sublist _).subset (h2 d hd).2)

theorem splitWs_token_props (s : Str) :
    ∀ w ∈ splitWs s, w ≠ [] ∧ ∀ c ∈ w, pyIsSpace c = false ∧ c ∈ s :=
  splitWsF_token_props s.length s

theorem splitWs_word (w : Str) (hne : w ≠ []) (hws : ∀ c ∈ w, pyIsSpace c = false) :
    splitWs w = [w] := by
  cases w with
  | nil => exact absurd rfl hne
  | cons c cs =>
    have hc : pyIsSpace c = false := hws c (List.mem_cons_self _ _)
    rw [splitWs_cons, if_neg (by simp [hc])]
    have ht : cs.takeWhile (fun d => !pyIsSpace d) = cs :=
      List.takeWhile_eq_self_iff.mpr
        (by intro d hd; simp [hws d (List.mem_cons_of_mem _ hd)])
    have hd : cs.dropWhile (fun d => !pyIsSpace d) = [] :=
      List.dropWhile_eq_nil_iff.mpr
        (by intro d hd; simp [hws d (List.mem_cons_of_mem _ hd)])
    rw [ht, hd]
    rfl

theorem splitWs_word_append (w r : Str) (hne : w ≠ [])
    (hws : ∀ c ∈ w, pyIsSpace c = false) :
    splitWs (w ++ ' ' :: r) = w :: splitWs r := by
  cases w with
  | nil => exact absurd rfl hne
  | cons c cs =>
    have hc : pyIsSpace c = false := hws c (List.mem_cons_self _ _)
    rw [List.cons_append, splitWs_cons, if_neg (by simp [hc])]
    have ht : (cs ++ ' ' :: r).takeWhile (fun d => !pyIsSpace d) = cs := by
      rw [List.takeWhile_append_of_pos
        (by intro d hd; simp [hws d (List.mem_cons_of_mem _ hd)])]
      rw [List.takeWhile_cons_of_neg (by simp [pyIsSpace])]
      simp
    have hd : (cs ++ ' ' :: r).dropWhile (fun d => !pyIsSpace d) = ' ' :: r := by
      rw [List.dropWhile_append_of_pos
        (by intro d hd; simp [hws d (List.mem_cons_of_mem _ hd)])]
      rw [List.dropWhile_cons_of_neg (by simp [pyIsSpace])]
    rw [ht, hd]
    rw [splitWs_cons, if_pos (by simp [pyIsSpace])]

theorem splitWs_joinSp (ts : List Str)
    (h : ∀ w ∈ ts, w ≠ [] ∧ ∀ c ∈ w, pyIsSpace c = false) :
    splitWs (joinSp ts) = ts := by
  induction ts with
  | nil => rfl
  | cons w ws ih =>
    cases ws with
    | nil =>
      rcases h w (List.mem_cons_self _ _) with ⟨h1, h2⟩
      exact splitWs_word w h1 h2
    | cons w2 ws' =>
      rcases h w (List.mem_cons_self _ _) with ⟨h1, h2⟩
      rw [joinSp, splitWs_word_append w _ h1 h2]
      rw [ih (fun u hu => h u (List.mem_cons_of_mem _ hu))]

theorem joinSp_chars (ts : List Str) :
    ∀ c ∈ joinSp ts, c = ' ' ∨ ∃ w ∈ ts, c ∈ w := by
  induction ts with
  | nil => simp [joinSp]
  | cons w ws ih =>
    cases ws with
    | nil =>
      intro c hc
      exact Or.inr ⟨w, List.mem_cons_self _ _, hc⟩
    | cons w2 ws' =>
      intro c hc
      rw [joinSp] at hc
      rcases List.mem_append.mp hc with h | h
      · exact Or.inr ⟨w, List.mem_cons_self _ _, h⟩
      · rcases List.mem_cons.mp h with h | h
        · exact Or.inl h
        · rcases ih c h with h2 | ⟨u, hu, hcu⟩
          · exact Or.inl h2
          · exact Or.inr ⟨u, List.mem_cons_of_mem _ hu, hcu⟩

theorem toNat_ofNat_valid (m : Nat) (h : m.isValidChar) :
    (Char.ofNat m).toNat = m := by
  rw [Char.ofNat, dif_pos h]
  rfl

theorem toLower_idem (c : Char) : c.toLower.toLower = c.toLower := by
  unfold Char.toLower
  by_cases h : c.toNat ≥ 65 ∧ c.toNat ≤ 90
  · rw [if_pos h]
    have hv : (c.toNat + 32).isValidChar := by
      left
      omega
    rw [toNat_ofNat_valid _ hv]
    rw [if_neg (by omega)]
  · rw [if_neg h, if_neg h]

theorem reSubDigits_eq_filter (s : Str) :
    reSubDigits s = s.filter (fun c => !c.isDigit) := by
  induction s with
  | nil => rfl
  | cons c cs ih =>
    rw [reSubDigits]
    by_cases h : c.isDigit
    · simp [h, ih]
    · simp [h, ih]

theorem strStarts_append_self (n m : Str) : strStarts n (n ++ m) = true := by
  induction n with
  | nil => rfl
  | cons c cs ih => simp [strStarts, ih]

theorem strEnds_append_self (n m : Str) : strEnds n (m ++ n) = true := by
  unfold strEnds
  rw [List.reverse_append]
  exact strStarts_append_self _ _

theorem pyStrip_eq_nil_all (w : Str) (h : pyStrip w = []) :
    ∀ c ∈ w, pyIsSpace c = true := by
  induction w with
  | nil => simp
  | cons c cs ih =>
    unfold pyStrip at h
    by_cases hc : pyIsSpace c = true
    · rw [List.dropWhile_cons_of_pos hc] at h
      intro d hd
      rcases List.mem_cons.mp hd with h2 | h2
      · exact h2 ▸ hc
      · exact ih h d h2
    · rw [List.dropWhile_cons_of_neg hc] at h
      exfalso
      rw [List.reverse_eq_nil_iff] at h
      have hall : ∀ d ∈ (c :: cs).reverse, pyIsSpace d = true :=
        List.dropWhile_eq_nil_iff.mp h
      exact hc (hall c (by simp))

theorem revDrop_of_last_nonws (x : Str) (c : Char) (hc : pyIsSpace c = false) :
    ((x ++ [c]).reverse.dropWhile pyIsSpace).reverse = x ++ [c] := by
  rw [List.reverse_append]
  simp only [List.reverse_cons, List.reverse_nil, List.nil_append,
    List.singleton_append]
  rw [List.dropWhile_cons_of_neg (by simp [hc])]
  simp

theorem pyStrip_of_ends_body (u : Str) :
    ((u ++ ocrSentinelBody).reverse.dropWhile pyIsSpace).reverse =
      u ++ ocrSentinelBody := by
  have hb : ocrSentinelBody =
      "⚠️ OCR not available in hosted version".toList ++ ['.'] := by decide
  rw [hb, ← List.append_assoc]
  exact revDrop_of_last_nonws _ _ (by decide)

theorem pyStrip_append_sentinel (q : Str) :
    ∃ u, pyStrip (q ++ ocrSentinel) = u ++ ocrSentinelBody := by
  unfold pyStrip
  rw [List.dropWhile_append]
  by_cases he : (q.dropWhile pyIsSpace).isEmpty = true
  · rw [if_pos he]
    refine ⟨[], ?_⟩
    have h1 : ocrSentinel.dropWhile pyIsSpace = ocrSentinelBody := by decide
    rw [h1]
    simpa using pyStrip_of_ends_body []
  · rw [if_neg he]
    refine ⟨q.dropWhile pyIsSpace ++ ['\n'], ?_⟩
    have hs : ocrSentinel = '\n' :: ocrSentinelBody := by decide
    rw [hs]
    have h2 : q.dropWhile pyIsSpace ++ '\n' :: ocrSentinelBody =
        (q.dropWhile pyIsSpace ++ ['\n']) ++ ocrSentinelBody := by simp
    rw [h2]
    exact pyStrip_of_ends_body _

theorem pyStrip_allws_append_sentinel (w : Str)
    (hw : ∀ c ∈ w, pyIsSpace c = true) :
    pyStrip (w ++ ocrSentinel) = ocrSentinelBody := by
  unfold pyStrip
  rw [List.dropWhile_append_of_pos hw]
  have h1 : ocrSentinel.dropWhile pyIsSpace = ocrSentinelBody := by decide
  rw [h1]
  simpa using pyStrip_of_ends_body []

theorem upload_state_shape (r : UploadReq) (st : List DocRecord) :
    (upload_file r st).2 = st ∨
    ∃ name text, (upload_file r st).2 =
      st ++ [{ id := st.length + 1, filename := name, extracted_text := text,
               category := categorize (preprocess_text text) }] := by
  cases r with
  | noFile => exact Or.inl rfl
  | withFile fp =>
    simp only [upload_file]
    by_cases h : fp.sanitized = []
    · rw [if_pos h]
      exact Or.inl rfl
    · rw [if_neg h]
      cases hsave : fp.save with
      | error e => exact Or.inl rfl
      | ok u =>
        by_cases hp : strEnds ".pdf".toList (pyLower fp.sanitized) = true
        · rw [if_pos hp]
          exact Or.inr ⟨fp.sanitized, extract_text_from_pdf fp.asPdf, rfl⟩
        · rw [if_neg hp]
          cases himg : fp.asImage with
          | error e => exact Or.inl rfl
          | ok text => exact Or.inr ⟨fp.sanitized, text, rfl⟩

theorem categorize_mem_fixed (t : Str) : categorize t ∈ fixedCategories := by
  unfold categorize
  repeat' split
  all_goals decide

theorem runUploads_inv (reqs : List UploadReq) (st : List DocRecord)
    (h : ∀ d ∈ st, d.category = categorize (preprocess_text d.extracted_text)) :
    ∀ d ∈ runUploads reqs st,
      d.category = categorize (preprocess_text d.extracted_text) := by
  induction reqs generalizing st with
  | nil => exact h
  | cons r rs ih =>
    rw [runUploads]
    apply ih
    intro d hd
    rcases upload_state_shape r st with hs | ⟨name, text, hs⟩
    · exact h d (hs ▸ hd)
    · rw [hs] at hd
      rcases List.mem_append.mp hd with h2 | h2
      · exact h d h2
      · rcases List.mem_singleton.mp h2 with rfl
        rfl

theorem upload_len (r : UploadReq) (st : List DocRecord) :
    (upload_file r st).2.length =
      st.length + (if isSuccess (upload_file r st).1 then 1 else 0) := by
  cases r with
  | noFile => simp [upload_file, isSuccess]
  | withFile fp =>
    simp only [upload_file]
    by_cases h : fp.sanitized = []
    · rw [if_pos h]
      simp [isSuccess]
    · rw [if_neg h]
      cases hsave : fp.save with
      | error e => simp [isSuccess]
      | ok u =>
        by_cases hp : strEnds ".pdf".toList (pyLower fp.sanitized) = true
        · rw [if_pos hp]
          simp [isSuccess]
        · rw [if_neg hp]
          cases himg : fp.asImage with
          | error e => simp [isSuccess]
          | ok text => simp [isSuccess]

theorem runUploads_len (reqs : List UploadReq) :
    ∀ st, (runUploads reqs st).length = st.length + countSuccesses reqs st := by
  induction reqs with
  | nil =>
    intro st
    simp [runUploads, countSuccesses]
  | cons r rs ih =>
    intro st
    rw [runUploads, countSuccesses, ih, upload_len]
    omega

/-- C1: `categorize` evaluates the four keyword sets in the fixed priority
order, the first set with a substring match determines the label,
`Uncategorized` otherwise; `categorize("")` is `Uncategorized`; a text
containing both `invoice` and `certificate` yields `Bill`. -/
theorem claim1_categorize_priority (t : Str) :
    categorize t = firstMatch specRules t ∧
    categorize [] = "Uncategorized".toList ∧
    (strHas "invoice".toList t = true ∧ strHas "certificate".toList t = true →
      categorize t = "Bill".toList) := by
  refine ⟨rfl, by decide, ?_⟩
  rintro ⟨h1, _⟩
  have hb : containsAny billWords t = true := by
    simp [containsAny, billWords]
    exact Or.inl h1
  simp [categorize, hb]

/-- Witness for C1 at a text containing both `invoice` and
`certificate`. -/
theorem claim1_witness :
    strHas "invoice".toList "xinvoicecertificatex".toList = true ∧
    strHas "certificate".toList "xinvoicecertificatex".toList = true ∧
    categorize "xinvoicecertificatex".toList = "Bill".toList :=
  ⟨by decide, by decide,
    (claim1_categorize_priority "xinvoicecertificatex".toList).2.2
      ⟨by decide, by decide⟩⟩

/-- C2: when the per-page direct extraction strips to a non-empty string,
`extract_text_from_pdf` returns that trimmed concatenation and its result
does not depend on the OCR fallback (rasterization/OCR never invoked). -/
theorem claim2_direct_extraction (pages : List Str) (ocr ocr' : OcrOutcome)
    (h : pyStrip (directText pages) ≠ []) :
    extract_text_from_pdf (.good pages ocr) = pyStrip (directText pages) ∧
    extract_text_from_pdf (.good pages ocr) =
      extract_text_from_pdf (.good pages ocr') := by
  constructor <;> simp [extract_text_from_pdf, h]

/-- Witness for C2 on a one-page text PDF. -/
theorem claim2_witness :
    extract_text_from_pdf (.good ["hello".toList] (.ok ["x".toList])) =
      pyStrip (directText ["hello".toList]) ∧
    extract_text_from_pdf (.good ["hello".toList] (.ok ["x".toList])) =
      extract_text_from_pdf (.good ["hello".toList] (.fail [])) :=
  claim2_direct_extraction ["hello".toList] (.ok ["x".toList]) (.fail [])
    (by decide)

/-- C3: an unparsable PDF produces the fixed error marker followed by the
cause instead of raising, and the upload pipeline persists that error
string as an ordinary document row (categorized from its normalized
form). -/
theorem claim3_corrupt_pdf_persisted (e : Str) (fp : FilePart)
    (st : List DocRecord) (h1 : fp.sanitized ≠ []) (h2 : fp.save = .ok ())
    (h3 : strEnds ".pdf".toList (pyLower fp.sanitized) = true)
    (h4 : fp.asPdf = .bad e) :
    strStarts pdfErrorMarker (extract_text_from_pdf (.bad e)) = true ∧
    upload_file (.withFile fp) st =
      (.success (pdfErrorMarker ++ e)
          (categorize (preprocess_text (pdfErrorMarker ++ e))),
        st ++ [{ id := st.length + 1, filename := fp.sanitized,
                 extracted_text := pdfErrorMarker ++ e,
                 category := categorize (preprocess_text (pdfErrorMarker ++ e)) }]) := by
  constructor
  · exact strStarts_append_self _ _
  · have hres : (if strEnds ['.', 'p', 'd', 'f'] (pyLower fp.sanitized) = true
        then Except.ok (pdfErrorMarker ++ e)
        else fp.asImage) = Except.ok (pdfErrorMarker ++ e) :=
      if_pos h3
    simp [upload_file, h1, h2, h4, extract_text_from_pdf, hres]

/-- Witness for C3 on a PDF whose parser raises with message `boom`. -/
theorem claim3_witness :
    upload_file (.withFile fpBadPdf) [] =
      (.success (pdfErrorMarker ++ "boom".toList)
          (categorize (preprocess_text (pdfErrorMarker ++ "boom".toList))),
        [{ id := 1, filename := "a.pdf".toList,
           extracted_text := pdfErrorMarker ++ "boom".toList,
           category := categorize (preprocess_text (pdfErrorMarker ++ "boom".toList)) }]) :=
  (claim3_corrupt_pdf_persisted "boom".toList fpBadPdf [] (by decide) rfl
    (by decide) rfl).2

/-- C4: when direct extraction strips to empty and the OCR fallback
raises, `extract_text_from_pdf` still returns a value — the text
accumulated so far plus the sentinel, finally stripped — and the
sentinel text is a suffix of the result. -/
theorem claim4_ocr_unavailable (pages produced : List Str)
    (h : pyStrip (directText pages) = []) :
    extract_text_from_pdf (.good pages (.fail produced)) =
      pyStrip (directText pages ++ produced.flatten ++ ocrSentinel) ∧
    strEnds ocrSentinelBody
      (extract_text_from_pdf (.good pages (.fail produced))) = true := by
  have h1 : extract_text_from_pdf (.good pages (.fail produced)) =
      pyStrip (directText pages ++ produced.flatten ++ ocrSentinel) := by
    simp [extract_text_from_pdf, h]
  refine ⟨h1, ?_⟩
  rw [h1]
  rcases pyStrip_append_sentinel (directText pages ++ produced.flatten)
    with ⟨u, hu⟩
  rw [hu]
  exact strEnds_append_self _ _

/-- Witness for C4 on a whitespace-only page with the rasterizer
raising. -/
theorem claim4_witness :
    extract_text_from_pdf (.good [" ".toList] (.fail [])) =
      pyStrip (directText [" ".toList] ++ List.flatten [] ++ ocrSentinel) ∧
    strEnds ocrSentinelBody
      (extract_text_from_pdf (.good [" ".toList] (.fail []))) = true :=
  claim4_ocr_unavailable [" ".toList] [] (by decide)

/-- C5: `preprocess_text` equals the spec pipeline (lowercase, drop digit
characters, drop ASCII punctuation, split on whitespace, drop stopwords,
rejoin with single spaces), is total, maps the empty string to the empty
string, and sends `"Invoice #123, Total: $50!!"` to `"invoice total"`. -/
theorem claim5_normalize_pipeline (t : Str) :
    preprocess_text t = normalizeSpec t ∧
    preprocess_text [] = [] ∧
    preprocess_text "Invoice #123, Total: $50!!".toList =
      "invoice total".toList := by
  refine ⟨?_, by decide, by decide⟩
  simp only [preprocess_text, normalizeSpec, reSubDigits_eq_filter]

/-- C6: `preprocess_text` is idempotent. -/
theorem claim6_normalize_idempotent (x : Str) :
    preprocess_text (preprocess_text x) = preprocess_text x := by
  simp only [preprocess_text]
  set t3 := ((reSubDigits (pyLower x)).filter (fun c => !isPunct c)) with ht3
  set ts := (splitWs t3).filter (fun w => !stop_words.contains w) with hts
  have hchar : ∀ c ∈ joinSp ts,
      c.toLower = c ∧ c.isDigit = false ∧ isPunct c = false := by
    intro c hc
    rcases joinSp_chars ts c hc with h | ⟨w, hw, hcw⟩
    · subst h
      exact ⟨rfl, rfl, rfl⟩
    · have hw2 : w ∈ splitWs t3 := (List.mem_filter.mp hw).1
      have hc3 : c ∈ t3 := ((splitWs_token_props t3 w hw2).2 c hcw).2
      have hcp : isPunct c = false := by
        have := (List.mem_filter.mp hc3).2
        simpa using this
      have hcd : c ∈ reSubDigits (pyLower x) := (List.mem_filter.mp hc3).1
      rw [reSubDigits_eq_filter] at hcd
      have hdig : c.isDigit = false := by
        have := (List.mem_filter.mp hcd).2
        simpa using this
      have hlow : c ∈ pyLower x := (List.mem_filter.mp hcd).1
      rcases List.mem_map.mp hlow with ⟨d, _, hd⟩
      exact ⟨hd ▸ toLower_idem d, hdig, hcp⟩
  have h1 : pyLower (joinSp ts) = joinSp ts := by
    unfold pyLower
    have hmap : (joinSp ts).map Char.toLower = (joinSp ts).map id :=
      List.map_congr_left (fun c hc => (hchar c hc).1)
    rw [hmap, List.map_id]
  have h2 : reSubDigits (joinSp ts) = joinSp ts := by
    rw [reSubDigits_eq_filter]
    exact List.filter_eq_self.mpr (fun c hc => by simp [(hchar c hc).2.1])
  have h3 : (joinSp ts).filter (fun c => !isPunct c) = joinSp ts :=
    List.filter_eq_self.mpr (fun c hc => by simp [(hchar c hc).2.2])
  have h4 : splitWs (joinSp ts) = ts := by
    apply splitWs_joinSp
    intro w hw
    have hw2 : w ∈ splitWs t3 := (List.mem_filter.mp hw).1
    have hp := splitWs_token_props t3 w hw2
    exact ⟨hp.1, fun c hc => (hp.2 c hc).1⟩
  have h5 : ts.filter (fun w => !stop_words.contains w) = ts :=
    List.filter_eq_self.mpr (fun w hw => (List.mem_filter.mp hw).2)
  rw [h1, h2, h3, h4, h5]

/-- C7: every record a run of uploads ever stores carries exactly the
category computed from its extracted text at creation time, that category
is one of the five fixed labels, and no upload step ever rewrites
existing rows (it appends at most one row); the read-only routes
(`dashboard`, `view_doc`) do not touch the state at all. -/
theorem claim7_category_invariant (reqs : List UploadReq) :
    (∀ d ∈ runUploads reqs [],
      d.category = categorize (preprocess_text d.extracted_text) ∧
      d.category ∈ fixedCategories) ∧
    (∀ r st, (upload_file r st).2 = st ∨ ∃ tl, (upload_file r st).2 = st ++ tl) := by
  constructor
  · intro d hd
    have h := runUploads_inv reqs [] (by simp) d hd
    exact ⟨h, h ▸ categorize_mem_fixed _⟩
  · intro r st
    rcases upload_state_shape r st with hs | ⟨name, text, hs⟩
    · exact Or.inl hs
    · exact Or.inr ⟨_, hs⟩

/-- Witness for C7 on the row created by uploading a one-page invoice
PDF. -/
theorem claim7_witness :
    ({ id := 1, filename := "a.pdf".toList, extracted_text := "invoice".toList,
       category := "Bill".toList } : DocRecord).category =
      categorize (preprocess_text "invoice".toList) ∧
    ("Bill".toList : Str) ∈ fixedCategories :=
  (claim7_category_invariant [.withFile fpInvoice]).1
    { id := 1, filename := "a.pdf".toList, extracted_text := "invoice".toList,
      category := "Bill".toList } (by decide)

/-- C8: an upload with no file part, or whose filename sanitizes to the
empty string, is answered with the corresponding fixed input-error string
and leaves the store untouched. -/
theorem claim8_input_errors (fp : FilePart) (st : List DocRecord)
    (h : fp.sanitized = []) :
    upload_file .noFile st = (.clientError noFileMsg, st) ∧
    upload_file (.withFile fp) st = (.clientError badNameMsg, st) ∧
    isInputError (upload_file .noFile st).1 = true ∧
    isInputError (upload_file (.withFile fp) st).1 = true := by
  have h2 : upload_file (.withFile fp) st = (.clientError badNameMsg, st) := by
    simp [upload_file, h]
  refine ⟨rfl, h2, by simp [upload_file, isInputError], ?_⟩
  rw [h2]
  simp [isInputError]

/-- Witness for C8: both input-error shapes on the empty store. -/
theorem claim8_witness :
    upload_file .noFile [] = (.clientError noFileMsg, []) ∧
    upload_file (.withFile fpEmptyName) [] = (.clientError badNameMsg, []) :=
  ⟨(claim8_input_errors fpEmptyName [] rfl).1,
   (claim8_input_errors fpEmptyName [] rfl).2.1⟩

/-- C9 counterexample: one upload whose `file.save` raises is not an
input error, yet the dashboard stays empty, so "rows = non-input-error
uploads" fails. -/
theorem claim9_counterexample :
    isInputError (upload_file (.withFile fpSaveFails) []).1 = false ∧
    (dashboard (runUploads [.withFile fpSaveFails] [])).length ≠
      countNonInputError [.withFile fpSaveFails] [] := by
  decide

/-- C9 as amended: the dashboard row count equals the number of uploads
answered with the success page (completed pipeline), for any request
sequence. -/
theorem claim9_dashboard_count (reqs : List UploadReq) :
    (dashboard (runUploads reqs [])).length = countSuccesses reqs [] := by
  simp [dashboard, runUploads_len reqs []]

/-- C10 counterexample: a page whose genuine text contains the sentinel
wording makes `extract_text_from_pdf` return a string containing the
sentinel that is not the sentinel alone. -/
theorem claim10_counterexample :
    strHas ocrSentinelBody (extract_text_from_pdf
      (.good ["A ⚠️ OCR not available in hosted version. B".toList] (.ok []))) =
      true ∧
    extract_text_from_pdf
      (.good ["A ⚠️ OCR not available in hosted version. B".toList] (.ok [])) ≠
      ocrSentinelBody := by
  decide

/-- C10 as amended: when the sentinel-append branch itself runs (direct
text all whitespace) and the OCR fallback raised before producing any
output, the returned string is exactly the sentinel text after trimming,
with no page text accompanying it. -/
theorem claim10_sentinel_alone (pages : List Str)
    (h : pyStrip (directText pages) = []) :
    extract_text_from_pdf (.good pages (.fail [])) = ocrSentinelBody := by
  have h1 : extract_text_from_pdf (.good pages (.fail [])) =
      pyStrip (directText pages ++ List.flatten [] ++ ocrSentinel) := by
    simp [extract_text_from_pdf, h]
  rw [h1]
  have h2 : directText pages ++ List.flatten ([] : List Str) ++ ocrSentinel =
      directText pages ++ ocrSentinel := by simp
  rw [h2]
  exact pyStrip_allws_append_sentinel _ (pyStrip_eq_nil_all _ h)

/-- Witness for the amended C10 on a tab-and-space page. -/
theorem claim10_witness :
    extract_text_from_pdf (.good ["\t ".toList] (.fail [])) = ocrSentinelBody :=
  claim10_sentinel_alone ["\t ".toList] (by decide)

end SmartDoc
